import Mathlib

/-!
Verification of the Cloudreve-Sync reconciliation core
(`src-tauri/src/core/sync.rs`), shallowly embedded in Lean.

Strings are modelled by Lean `String` (a wrapper around `List Char`);
character-level path/URI manipulation is done on `List Char` with `String`
wrappers mirroring the Rust function names.  Machine integers: Rust `i64`
timestamps are modelled as `Int`, `u64`/`usize` sizes as `Nat` (saturating
arithmetic is made explicit where the source uses it).  Fallible code is
modelled with `Except`/`Option`.  External collaborators (the HTTP client,
the filesystem, `chrono`'s RFC-3339 parser) enter as explicit parameters or
as result values handed to the modelled functions.
-/

/-! ## Character-list helpers (modelling `str` operations used by the core) -/

/-- Value of a hexadecimal digit, as used by percent-decoding. -/
def hexVal (c : Char) : Option Nat :=
  if '0' ≤ c ∧ c ≤ '9' then some (c.toNat - '0'.toNat)
  else if 'a' ≤ c ∧ c ≤ 'f' then some (c.toNat - 'a'.toNat + 10)
  else if 'A' ≤ c ∧ c ≤ 'F' then some (c.toNat - 'A'.toNat + 10)
  else none

/-- Percent-decoding of a character list.  Models the external crate call
`urlencoding::decode` (used by `uri_path` in `sync.rs`) at the byte level for
ASCII escapes: a valid `%hh` escape becomes the character with code `hh`, an
invalid escape is kept verbatim.  (Multi-byte UTF-8 escape sequences and the
invalid-UTF-8 error path of the crate are outside the inputs considered by the
claims, which stay within ASCII.) -/
def percentDecodeChars : List Char → List Char
  | [] => []
  | '%' :: h1 :: h2 :: rest =>
    match hexVal h1, hexVal h2 with
    | some a, some b => Char.ofNat (16 * a + b) :: percentDecodeChars rest
    | _, _ => '%' :: percentDecodeChars (h1 :: h2 :: rest)
  | c :: rest => c :: percentDecodeChars rest

/-- First index at which `needle` occurs as a contiguous sub-list of `hay`;
models `str::find(&str)`. -/
def findSub (needle : List Char) : List Char → Option Nat
  | [] => if needle.isPrefixOf ([] : List Char) then some 0 else none
  | c :: rest =>
    if needle.isPrefixOf (c :: rest) then some 0
    else (findSub needle rest).map (· + 1)

/-- Models `str::contains(&str)`. -/
def containsSub (needle hay : List Char) : Bool :=
  (findSub needle hay).isSome

/-- Models `str::strip_prefix(p).unwrap_or(s)`: drop `pre` if it is a prefix,
otherwise return `s` unchanged. -/
def stripPre (pre s : List Char) : List Char :=
  if pre.isPrefixOf s then s.drop pre.length else s

/-- Models `str::trim_end_matches('/')`. -/
def trimEndSlashes (s : List Char) : List Char :=
  (s.reverse.dropWhile (fun c => c == '/')).reverse

/-- Models `str::trim_start_matches('/')`. -/
def dropLeadSlashes (s : List Char) : List Char :=
  s.dropWhile (fun c => c == '/')

/-- First index satisfying `p`; models `str::find(char)`. -/
def findCharIdx (p : Char → Bool) : List Char → Option Nat
  | [] => none
  | c :: rest => if p c then some 0 else (findCharIdx p rest).map (· + 1)

/-- Character-level body of `uri_path` (`sync.rs` lines 753-768): take the part
before the first `?`, locate `cloudreve://`, keep from the first `/` after the
authority (everything if the scheme marker is absent, nothing if no `/`
follows it), then percent-decode. -/
def uriPathChars (uri : List Char) : List Char :=
  let cleaned := uri.takeWhile (fun c => c != '?')
  let path :=
    match findSub ("cloudreve://").data cleaned with
    | some pos =>
      let rest := cleaned.drop (pos + ("cloudreve://").data.length)
      match findCharIdx (fun c => c == '/') rest with
      | some idx => rest.drop idx
      | none => ([] : List Char)
    | none => cleaned
  percentDecodeChars path

/-- Character-level body of `build_remote_uri` (`sync.rs` lines 770-774):
`root.trim_end_matches('/') ++ "/" ++ relpath.trim_start_matches('/')`,
with no percent-re-encoding of the segments. -/
def buildRemoteUriChars (root rel : List Char) : List Char :=
  trimEndSlashes root ++ '/' :: dropLeadSlashes rel

/-- `uri_path` from `sync.rs`. -/
def uri_path (uri : String) : String :=
  String.mk (uriPathChars uri.data)

/-- `build_remote_uri` from `sync.rs`. -/
def build_remote_uri (root relpath : String) : String :=
  String.mk (buildRemoteUriChars root.data relpath.data)

/-- The relpath derivation shared by `to_remote_map` (`sync.rs` lines 716-721):
`file_path.strip_prefix(&root_path).unwrap_or(&file_path).trim_start_matches('/')`. -/
def relFromUriChars (rootPath filePath : List Char) : List Char :=
  dropLeadSlashes (stripPre rootPath filePath)

/-! ## Data model (rows from `db.rs`, per-pass records from `sync.rs`) -/

/-- `LocalFileInfo` from `sync.rs` (the `abs_path : PathBuf` is a string). -/
structure LocalFileInfo where
  relpath : String
  abs_path : String
  size : Nat
  mtime_ms : Int
  sha256 : String
deriving DecidableEq

/-- `RemoteFileInfo` from `sync.rs`; the `HashMap<String,String>` metadata is
modelled as an association list with distinct keys. -/
structure RemoteFileInfo where
  file_id : String
  uri : String
  relpath : String
  size : Nat
  mtime_ms : Int
  sha256 : String
  deleted_at_ms : Option Int
  metadata : List (String × String)
deriving DecidableEq

/-- `EntryRow` from `db.rs`. -/
structure EntryRow where
  task_id : String
  local_relpath : String
  cloud_file_id : String
  cloud_uri : String
  last_local_mtime_ms : Int
  last_local_sha256 : String
  last_remote_mtime_ms : Int
  last_remote_sha256 : String
  last_sync_ts_ms : Int
  state : String
deriving DecidableEq

/-- `TombstoneRow` from `db.rs`. -/
structure TombstoneRow where
  task_id : String
  cloud_file_id : String
  local_relpath : String
  deleted_at_ms : Int
  origin : String
deriving DecidableEq

/-- `ConflictRow` from `db.rs`. -/
structure ConflictRow where
  task_id : String
  original_relpath : String
  conflict_relpath : String
  created_at_ms : Int
  reason : String
deriving DecidableEq

/-! ## The per-path reconciliation decision of `SyncEngine::sync_once`
(`sync.rs` lines 119-234) -/

/-- The action `sync_once` takes on one relpath.  `propagateRemoteDelete`
records whether the local file is removed and whether a tombstone is
inserted (the two sub-steps of the remote-deleted branch). -/
inductive SyncAction where
  | propagateRemoteDelete (removeLocal : Bool) (insertTomb : Bool)
  | propagateLocalDelete
  | conflict
  | uploadLocal
  | downloadRemote
  | uploadNewLocal
  | downloadNewRemote
  | noop
deriving DecidableEq

/-- `local_changed` (`sync.rs` lines 179-184): true when the entry is absent,
otherwise when hash or mtime differ from the journal. -/
def localChanged (entry : Option EntryRow) (l : LocalFileInfo) : Bool :=
  match entry with
  | some e => e.last_local_sha256 != l.sha256 || e.last_local_mtime_ms != l.mtime_ms
  | none => true

/-- `remote_changed` (`sync.rs` lines 185-190). -/
def remoteChanged (entry : Option EntryRow) (r : RemoteFileInfo) : Bool :=
  match entry with
  | some e => e.last_remote_sha256 != r.sha256 || e.last_remote_mtime_ms != r.mtime_ms
  | none => true

/-- Guard of the first branch of the loop body: `remote.deleted_at_ms.is_some()`. -/
def remoteDeletedFlag : Option RemoteFileInfo → Bool
  | some r => r.deleted_at_ms.isSome
  | none => false

/-- The decision taken by the body of the per-path loop in `sync_once`
(`sync.rs` lines 126-221), in source order: the remote-deleted branch, the
local-delete-propagation branch, then the `match (local, remote)` with the
conflict guard, the `prefer_local` disambiguation, and the new-file arms. -/
def decideAction (l? : Option LocalFileInfo) (r? : Option RemoteFileInfo)
    (e? : Option EntryRow) (t? : Option TombstoneRow) : SyncAction :=
  if remoteDeletedFlag r? then
    SyncAction.propagateRemoteDelete l?.isSome t?.isNone
  else if l?.isNone && e?.isSome && t?.isNone then
    (if r?.isSome then SyncAction.propagateLocalDelete else SyncAction.noop)
  else
    match l?, r? with
    | some l, some r =>
      if e?.isSome && localChanged e? l && remoteChanged e? r
          && (l.sha256 != r.sha256) then
        SyncAction.conflict
      else if localChanged e? l
          && (!remoteChanged e? r || e?.isNone || decide (l.mtime_ms ≥ r.mtime_ms)) then
        SyncAction.uploadLocal
      else if remoteChanged e? r then
        SyncAction.downloadRemote
      else
        SyncAction.noop
    | some _, none => SyncAction.uploadNewLocal
    | none, some _ => SyncAction.downloadNewRemote
    | none, none => SyncAction.noop

/-! ## Journal entries written by the four transfer actions (claim C4) -/

/-- The `EntryRow` upserted by `upload_new_local` (`sync.rs` lines 250-264). -/
def uploadNewLocalEntry (task_id uri : String) (l : LocalFileInfo) (now : Int) : EntryRow :=
  { task_id := task_id
    local_relpath := l.relpath
    cloud_file_id := ""
    cloud_uri := uri
    last_local_mtime_ms := l.mtime_ms
    last_local_sha256 := l.sha256
    last_remote_mtime_ms := l.mtime_ms
    last_remote_sha256 := l.sha256
    last_sync_ts_ms := now
    state := "ok" }

/-- The `EntryRow` upserted by `upload_local` (`sync.rs` lines 286-300). -/
def uploadLocalEntry (task_id : String) (l : LocalFileInfo) (r : RemoteFileInfo)
    (now : Int) : EntryRow :=
  { task_id := task_id
    local_relpath := l.relpath
    cloud_file_id := r.file_id
    cloud_uri := r.uri
    last_local_mtime_ms := l.mtime_ms
    last_local_sha256 := l.sha256
    last_remote_mtime_ms := l.mtime_ms
    last_remote_sha256 := l.sha256
    last_sync_ts_ms := now
    state := "ok" }

/-- The `EntryRow` upserted by `download_new_remote` (`sync.rs` lines 327-341). -/
def downloadNewRemoteEntry (task_id : String) (r : RemoteFileInfo) (now : Int) : EntryRow :=
  { task_id := task_id
    local_relpath := r.relpath
    cloud_file_id := r.file_id
    cloud_uri := r.uri
    last_local_mtime_ms := r.mtime_ms
    last_local_sha256 := r.sha256
    last_remote_mtime_ms := r.mtime_ms
    last_remote_sha256 := r.sha256
    last_sync_ts_ms := now
    state := "ok" }

/-- The `EntryRow` upserted by `download_remote` (`sync.rs` lines 368-382). -/
def downloadRemoteEntry (task_id : String) (l : LocalFileInfo) (r : RemoteFileInfo)
    (now : Int) : EntryRow :=
  { task_id := task_id
    local_relpath := l.relpath
    cloud_file_id := r.file_id
    cloud_uri := r.uri
    last_local_mtime_ms := r.mtime_ms
    last_local_sha256 := r.sha256
    last_remote_mtime_ms := r.mtime_ms
    last_remote_sha256 := r.sha256
    last_sync_ts_ms := now
    state := "ok" }

/-! ## Chunked upload (`SyncEngine::upload_with_session`, `sync.rs` lines 608-641),
claim C5.  Content is a byte string, modelled as a list of naturals. -/

/-- The effective chunk size: `session.chunk_size` when positive, otherwise
`content.len().max(1)` (`sync.rs` lines 619-623). -/
def effectiveChunkSize (sessionChunkSize contentLen : Nat) : Nat :=
  if 0 < sessionChunkSize then sessionChunkSize else max contentLen 1

/-- The chunking loop of `upload_with_session` (`sync.rs` lines 625-639):
starting at `idx`, emit `(index, chunk)` pairs of `m + 1` bytes each (the
effective chunk size is always positive, so it is passed as `m + 1`);
`&content[offset..end]` is `take`/`drop` on the remaining list. -/
def chunksGo (m idx : Nat) (content : List Nat) : List (Nat × List Nat) :=
  match content with
  | [] => []
  | a :: rest =>
    (idx, (a :: rest).take (m + 1)) :: chunksGo m (idx + 1) ((a :: rest).drop (m + 1))
termination_by content.length
decreasing_by simp [List.length_drop]; omega

/-- The sequence of `upload_chunk(session_id, index, chunk)` calls issued by
`upload_with_session` for a session whose `chunk_size` is `sessionChunkSize`. -/
def uploadChunkCalls (sessionChunkSize : Nat) (content : List Nat) : List (Nat × List Nat) :=
  chunksGo (effectiveChunkSize sessionChunkSize content.length - 1) 0 content

/-! ## Whole-file upload with chunked fallback
(`SyncEngine::upload_content`, `sync.rs` lines 561-606, and
`is_file_too_large`, lines 826-831), claim C6. -/

/-- Modelled from the spec: the typed error enum `CloudreveError`
(`src-tauri/src/core/error.rs` is not among the provided sources; only its
users are).  Per spec sections 4.4, 6 and 7, every non-zero service code maps
to a typed error preserving the code, with code 40049 distinguished as
`FileTooLarge`. -/
inductive CloudreveError where
  | fileTooLarge
  | service (code : Nat)
deriving DecidableEq

/-- Modelled from the spec: the display text of a `CloudreveError` (its
`Display` impl lives in the missing `error.rs`).  Only used to embed an error
into a log/message string; no claim inspects the text. -/
def cloudreveErrText : CloudreveError → String
  | CloudreveError.fileTooLarge => "file too large"
  | CloudreveError.service code => "service error " ++ toString code

/-- A `Box<dyn Error>` as it reaches `is_file_too_large`: either a typed
`CloudreveError` (downcast succeeds) or some other error carrying only its
message (downcast fails). -/
inductive SyncError where
  | cloudreve (e : CloudreveError)
  | message (s : String)
deriving DecidableEq

/-- Display of a `SyncError`, used when wrapping it into a new message. -/
def syncErrText : SyncError → String
  | SyncError.cloudreve e => cloudreveErrText e
  | SyncError.message s => s

/-- `is_file_too_large` (`sync.rs` lines 826-831): if the error downcasts to
`CloudreveError`, the answer is whether it is `FileTooLarge` (the string test
is not reached); otherwise the error's text is searched for `"40049"`. -/
def is_file_too_large (err : SyncError) : Bool :=
  match err with
  | SyncError.cloudreve e => e == CloudreveError.fileTooLarge
  | SyncError.message s => containsSub ("40049").data s.data

/-- The result value of `upload_content` (`sync.rs` lines 561-606), as a
function of the outcome of the whole-file PUT (`update_file_content`) and of
the chunked fallback (`upload_with_session`).  The fallback outcome is only
consulted when the PUT failed with a `FileTooLarge` error; stats side effects
are modelled separately (claim C10). -/
def uploadContentResult (relpath : String)
    (putRes fallbackRes : Except SyncError Unit) : Except SyncError Unit :=
  match putRes with
  | Except.ok _ => Except.ok ()
  | Except.error err =>
    if is_file_too_large err then
      match fallbackRes with
      | Except.ok _ => Except.ok ()
      | Except.error uploadErr =>
        if is_file_too_large uploadErr then
          Except.error (SyncError.message
            ("上传失败: " ++ relpath ++ " (存储策略限制，文件过大: " ++ syncErrText uploadErr ++ ")"))
        else
          Except.error (SyncError.message
            ("上传失败: " ++ relpath ++ " (分片上传失败: " ++ syncErrText uploadErr ++ ")"))
    else
      Except.error (SyncError.message
        ("上传失败: " ++ relpath ++ " (" ++ syncErrText err ++ ")"))

/-! ## Remote record normalization (`to_remote_map`, `sync.rs` lines 706-751,
and `parse_updated_at`, lines 798-802), claim C7. -/

/-- `RemoteFile` from `cloudreve.rs` (the listing record). -/
structure RemoteFile where
  id : String
  name : String
  uri : String
  size : Nat
  updated_at : String
  metadata : List (String × String)
  is_dir : Bool
deriving DecidableEq

/-- Reserved metadata key `customize:sync_mtime_ms` (`sync.rs` line 22). -/
def META_MTIME : String := "customize:sync_mtime_ms"

/-- Reserved metadata key `customize:sync_sha256` (`sync.rs` line 23). -/
def META_SHA256 : String := "customize:sync_sha256"

/-- Reserved metadata key `customize:sync_deleted_at_ms` (`sync.rs` line 24). -/
def META_DELETED_AT : String := "customize:sync_deleted_at_ms"

/-- Digit-accumulating loop of integer parsing: consumes decimal digits,
failing on any other character. -/
def parseDigitsGo (acc : Nat) : List Char → Option Nat
  | [] => some acc
  | c :: rest =>
    if '0' ≤ c ∧ c ≤ '9' then parseDigitsGo (10 * acc + (c.toNat - '0'.toNat)) rest
    else none

/-- Models `str::parse::<i64>()`: optional sign, at least one digit, all
digits, result within the `i64` range. -/
def parseI64Chars (s : List Char) : Option Int :=
  match s with
  | [] => none
  | '+' :: rest =>
    if rest = [] then none
    else (parseDigitsGo 0 rest).bind fun n =>
      if n ≤ 2 ^ 63 - 1 then some (Int.ofNat n) else none
  | '-' :: rest =>
    if rest = [] then none
    else (parseDigitsGo 0 rest).bind fun n =>
      if n ≤ 2 ^ 63 then some (-(Int.ofNat n)) else none
  | l =>
    (parseDigitsGo 0 l).bind fun n =>
      if n ≤ 2 ^ 63 - 1 then some (Int.ofNat n) else none

/-- `parse_updated_at` (`sync.rs` lines 798-802).  `chrono`'s RFC-3339 parser
is an external crate and enters as the parameter `rfcParse` (returning Unix
milliseconds on success); `now_ms()` enters as `now`. -/
def parse_updated_at (rfcParse : String → Option Int) (now : Int) (value : String) : Int :=
  (rfcParse value).getD now

/-- The per-record body of `to_remote_map` (`sync.rs` lines 712-748): `none`
for directories and for records whose derived relpath is empty, otherwise the
`(relpath, RemoteFileInfo)` pair inserted into the map. -/
def mkRemoteInfo (rfcParse : String → Option Int) (now : Int)
    (remote_root_uri : String) (f : RemoteFile) : Option (String × RemoteFileInfo) :=
  if f.is_dir then none
  else
    let root_path := uriPathChars remote_root_uri.data
    let file_path := uriPathChars f.uri.data
    let relpath := String.mk (relFromUriChars root_path file_path)
    if relpath = "" then none
    else
      let sha256 := (List.lookup META_SHA256 f.metadata).getD ("")
      let mtime_ms := ((List.lookup META_MTIME f.metadata).bind
          (fun v => parseI64Chars v.data)).getD (parse_updated_at rfcParse now f.updated_at)
      let deleted_at_ms := (List.lookup META_DELETED_AT f.metadata).bind
          (fun v => parseI64Chars v.data)
      some (relpath,
        { file_id := f.id
          uri := f.uri
          relpath := relpath
          size := f.size
          mtime_ms := mtime_ms
          sha256 := sha256
          deleted_at_ms := deleted_at_ms
          metadata := f.metadata })

/-- `to_remote_map` (`sync.rs` lines 706-751): fold the records in listing
order, inserting each normalized one into the map (later records overwrite
earlier ones of the same relpath, as `HashMap::insert` does). -/
def to_remote_map (rfcParse : String → Option Int) (now : Int)
    (files : List RemoteFile) (remote_root_uri : String) : List (String × RemoteFileInfo) :=
  files.foldl
    (fun out f =>
      match mkRemoteInfo rfcParse now remote_root_uri f with
      | none => out
      | some (k, v) => (out.filter (fun kv => kv.1 != k)) ++ [(k, v)])
    []

/-! ## Local scan (`scan_local`, `sync.rs` lines 644-697), claim C8. -/

instance {α β : Type} [DecidableEq α] [DecidableEq β] : DecidableEq (Except α β) := fun x y =>
  match x, y with
  | Except.ok a, Except.ok b =>
    if h : a = b then isTrue (by rw [h]) else isFalse (by simp [h])
  | Except.error a, Except.error b =>
    if h : a = b then isTrue (by rw [h]) else isFalse (by simp [h])
  | Except.ok _, Except.error _ => isFalse (by simp)
  | Except.error _, Except.ok _ => isFalse (by simp)

/-- The outcome of `metadata.modified()?.duration_since(UNIX_EPOCH)?` for one
file, collapsed into a single fallible value (both `?`s surface the error).  -/
structure FileMeta where
  len : Nat
  modifiedMs : Except String Int
deriving DecidableEq

/-- One entry yielded by the `WalkDir` iterator, with the result of its
subsequent `entry.metadata()` call. -/
structure WalkEntry where
  isFile : Bool
  absPath : String
  meta : Except String FileMeta
deriving DecidableEq

/-- `LocalFileSeed` from `scan_local`. -/
structure LocalFileSeed where
  relpath : String
  abs_path : String
  size : Nat
  mtime_ms : Int
deriving DecidableEq

/-- Relpath derivation of `scan_local` (`sync.rs` lines 664-669), at string
level with `/` as `MAIN_SEPARATOR` (Unix; the `replace` is then the identity).
The component-boundary behaviour of `Path::strip_prefix` is approximated by
the string prefix test; the claims settled here do not depend on the derived
relpath values. -/
def relpathOfLocal (root abs : String) : String :=
  String.mk (dropLeadSlashes (stripPre root.data abs.data))

/-- The seed-collection loop of `scan_local` (`sync.rs` lines 653-676):
`WalkDir` results are filtered through `filter_map(Result::ok)` (an `Err`
entry is silently dropped), non-files are skipped, and the `?` operators on
`metadata()` and on the mtime chain surface the first error. -/
def buildSeeds (root : String) : List (Except String WalkEntry) → Except String (List LocalFileSeed)
  | [] => Except.ok []
  | Except.error _ :: rest => buildSeeds root rest
  | Except.ok e :: rest =>
    if e.isFile = false then buildSeeds root rest
    else
      match e.meta with
      | Except.error msg => Except.error msg
      | Except.ok m =>
        match m.modifiedMs with
        | Except.error msg => Except.error msg
        | Except.ok mt =>
          match buildSeeds root rest with
          | Except.error msg => Except.error msg
          | Except.ok seeds =>
            Except.ok
              ({ relpath := relpathOfLocal root e.absPath
                 abs_path := e.absPath
                 size := m.len
                 mtime_ms := mt } :: seeds)

/-- The hashing phase of `scan_local` (`sync.rs` lines 677-695): every seed is
hashed (`hashFn` abstracts `hash_file` over the filesystem) and the first
error in seed order is surfaced.  The source hashes in parallel, collects all
results in order, and then folds with `?`; the resulting value equals this
sequential first-error fold. -/
def hashSeeds (hashFn : String → Except String String) :
    List LocalFileSeed → Except String (List LocalFileInfo)
  | [] => Except.ok []
  | s :: rest =>
    match hashFn s.abs_path with
    | Except.error msg => Except.error msg
    | Except.ok h =>
      match hashSeeds hashFn rest with
      | Except.error msg => Except.error msg
      | Except.ok out =>
        Except.ok
          ({ relpath := s.relpath
             abs_path := s.abs_path
             size := s.size
             mtime_ms := s.mtime_ms
             sha256 := h } :: out)

/-- `scan_local` (`sync.rs` lines 644-697) over the walk results `walk`. -/
def scan_local (root : String) (hashFn : String → Except String String)
    (walk : List (Except String WalkEntry)) : Except String (List LocalFileInfo) :=
  match buildSeeds root walk with
  | Except.error msg => Except.error msg
  | Except.ok seeds => hashSeeds hashFn seeds

/-! ## Conflict materialization (`SyncEngine::handle_conflict`,
`sync.rs` lines 395-447), claim C3. -/

/-- `Path::file_name` at character level: the part after the last `/`. -/
def fileNameChars (p : List Char) : List Char :=
  (p.reverse.takeWhile (fun c => c != '/')).reverse

/-- `file_extension` (`sync.rs` lines 811-816), i.e. `Path::extension`: the
part of the file name after its last `.`, absent when the name has no `.` or
only a leading one. -/
def fileExtensionChars (p : List Char) : Option (List Char) :=
  let name := fileNameChars p
  let extRev := name.reverse.takeWhile (fun c => c != '.')
  if extRev.length = name.length then none
  else if name.length = extRev.length + 1 ∧ name.head? = some '.' then none
  else some extRev.reverse

/-- `file_stem` (`sync.rs` lines 818-824), i.e. `Path::file_stem` with
`unwrap_or(path)`: the file name up to its last `.`, or the whole name when it
has no `.` or only a leading one. -/
def fileStemChars (p : List Char) : List Char :=
  let name := fileNameChars p
  let extRev := name.reverse.takeWhile (fun c => c != '.')
  if extRev.length = name.length then name
  else if name.length = extRev.length + 1 ∧ name.head? = some '.' then name
  else name.take (name.length - extRev.length - 1)

/-- String wrapper for `file_extension`. -/
def file_extension (p : String) : Option String :=
  (fileExtensionChars p.data).map String.mk

/-- String wrapper for `file_stem`. -/
def file_stem (p : String) : String :=
  String.mk (fileStemChars p.data)

/-- The conflict relpath composed by `handle_conflict` (`sync.rs` lines
401-411): `"{stem} (conflict-{device_id}-{timestamp})"` with the original
extension re-appended when present. -/
def conflictRelpathOf (relpath device_id timestamp : String) : String :=
  let conflictName := file_stem relpath ++ " (conflict-" ++ device_id ++ "-" ++ timestamp ++ ")"
  match file_extension relpath with
  | some ext => conflictName ++ "." ++ ext
  | none => conflictName

/-- `Path::join` for a non-absolute right operand on Unix. -/
def joinPath (root rel : String) : String :=
  root ++ "/" ++ rel

/-- `Path::parent` at string level: everything before the last `/`. -/
def parentOf (p : String) : String :=
  String.mk ((p.data.reverse.dropWhile (fun c => c != '/')).drop 1).reverse

/-- Externally visible side effects a reconciliation step can perform.
`handle_conflict` emits only the first five kinds; the constructors for
overwriting or removing a local file, and for upserting a journal entry, are
present so that their absence from the conflict trace is a statement about
the modelled code rather than about the vocabulary. -/
inductive Effect where
  | createDirAll (path : String)
  | copyLocal (src dst : String)
  | uploadRemote (uri : String)
  | patchMetadata (uri : String)
  | insertConflict (row : ConflictRow)
  | writeLocal (path : String)
  | removeLocal (path : String)
  | upsertEntry (row : EntryRow)
deriving DecidableEq

/-- The effect trace of `handle_conflict` (`sync.rs` lines 395-447), in
source order: create the conflict copy's parent directories, copy the local
file to the conflict path, upload that copy to the conflict URI, patch its
conflict metadata, and insert the conflict row.  `timestamp` abstracts
`Local::now().format(...)` and `now` abstracts `now_ms()`. -/
def handleConflictEffects (local_root device_id remote_root_uri task_id : String)
    (l : LocalFileInfo) (timestamp : String) (now : Int) : List Effect :=
  let conflict_relpath := conflictRelpathOf l.relpath device_id timestamp
  let conflict_abs := joinPath local_root conflict_relpath
  let conflict_uri := build_remote_uri remote_root_uri conflict_relpath
  [ Effect.createDirAll (parentOf conflict_abs),
    Effect.copyLocal l.abs_path conflict_abs,
    Effect.uploadRemote conflict_uri,
    Effect.patchMetadata conflict_uri,
    Effect.insertConflict
      { task_id := task_id
        original_relpath := l.relpath
        conflict_relpath := conflict_relpath
        created_at_ms := now
        reason := "both_modified" } ]

/-- Whether an effect is a conflict-row insertion. -/
def isInsertConflict : Effect → Bool
  | Effect.insertConflict _ => true
  | _ => false

/-- Whether an effect is a local file copy. -/
def isCopyLocal : Effect → Bool
  | Effect.copyLocal _ _ => true
  | _ => false

/-- Whether an effect is a remote upload. -/
def isUploadRemote : Effect → Bool
  | Effect.uploadRemote _ => true
  | _ => false

/-- Whether an effect writes, overwrites or removes the local file at `path`,
or uploads or patches the remote file at `uri`; used to state frame
conditions. -/
def touchesLocalFile (path : String) : Effect → Bool
  | Effect.copyLocal _ dst => dst == path
  | Effect.writeLocal p => p == path
  | Effect.removeLocal p => p == path
  | _ => false

/-- Whether an effect uploads to or patches the remote file at `uri`. -/
def touchesRemoteUri (uri : String) : Effect → Bool
  | Effect.uploadRemote u => u == uri
  | Effect.patchMetadata u => u == uri
  | _ => false

/-- Whether an effect writes a journal entry. -/
def isUpsertEntry : Effect → Bool
  | Effect.upsertEntry _ => true
  | _ => false

/-! ## Throughput counters (`SyncStats` and its updates), claim C10. -/

/-- `SyncStats` (`sync.rs` lines 59-64): `uploaded_bytes`, `downloaded_bytes`
are `u64`, `operations` is `u32`; all modelled as `Nat` with explicit bounds. -/
structure SyncStats where
  uploaded_bytes : Nat
  downloaded_bytes : Nat
  operations : Nat
deriving DecidableEq

/-- `u64::saturating_add`. -/
def satAdd64 (a b : Nat) : Nat :=
  min (a + b) (2 ^ 64 - 1)

/-- `u32::saturating_add`. -/
def satAdd32 (a b : Nat) : Nat :=
  min (a + b) (2 ^ 32 - 1)

/-- The stats updates performed during one pass, one constructor per update
site in `sync.rs`: a finished download (lines 348-350 and 389-391), a
successful whole-file upload (lines 570-576), one uploaded chunk (lines
633-636), and the operation count of a successful chunked fallback (lines
584-586).  Each is followed by a `notify_progress` observer call. -/
inductive StatEvent where
  | download (bytesLen : Nat)
  | uploadOk (contentLen : Nat)
  | chunk (chunkLen : Nat)
  | fallbackOp
deriving DecidableEq

/-- Apply one stats update, exactly as the corresponding source site does. -/
def applyEvent (s : SyncStats) : StatEvent → SyncStats
  | StatEvent.download n =>
    { s with downloaded_bytes := satAdd64 s.downloaded_bytes n,
             operations := satAdd32 s.operations 1 }
  | StatEvent.uploadOk n =>
    { s with uploaded_bytes := satAdd64 s.uploaded_bytes n,
             operations := satAdd32 s.operations 1 }
  | StatEvent.chunk n =>
    { s with uploaded_bytes := satAdd64 s.uploaded_bytes n }
  | StatEvent.fallbackOp =>
    { s with operations := satAdd32 s.operations 1 }

/-- The stats value after a sequence of updates. -/
def applyEvents (s : SyncStats) (events : List StatEvent) : SyncStats :=
  events.foldl applyEvent s

/-- Pointwise order on stats: what it means for a later observer invocation to
see values at least as large as an earlier one. -/
def statsLe (s t : SyncStats) : Prop :=
  s.uploaded_bytes ≤ t.uploaded_bytes ∧ s.downloaded_bytes ≤ t.downloaded_bytes
    ∧ s.operations ≤ t.operations

/-- The machine-integer bounds every reachable `SyncStats` satisfies
(`u64` byte counters, `u32` operation counter). -/
def boundedStats (s : SyncStats) : Prop :=
  s.uploaded_bytes ≤ 2 ^ 64 - 1 ∧ s.downloaded_bytes ≤ 2 ^ 64 - 1
    ∧ s.operations ≤ 2 ^ 32 - 1

/-! # Theorems -/

/-! ## Generic helper lemmas -/

theorem percentDecode_cons_ne (c : Char) (rest : List Char) (hc : c ≠ '%') :
    percentDecodeChars (c :: rest) = c :: percentDecodeChars rest := by
  cases rest with
  | nil => simp [percentDecodeChars, hc]
  | cons h1 rest1 =>
    cases rest1 with
    | nil => simp [percentDecodeChars, hc]
    | cons h2 rest2 => simp [percentDecodeChars, hc]

theorem percentDecode_no_pct (l : List Char) (h : ∀ c ∈ l, c ≠ '%') :
    percentDecodeChars l = l := by
  induction l with
  | nil => rfl
  | cons c rest ih =>
    rw [percentDecode_cons_ne c rest (h c (List.mem_cons_self c rest))]
    exact congrArg (c :: ·) (ih fun x hx => h x (List.mem_cons_of_mem c hx))

/-! ## Claim C1 -/

/-- C1: "for every relpath with a tombstone and no observation fresher than
the tombstone's `deleted_at_ms`, the pass performs no upload and no download"
fails on the code: the `match (local, remote)` of `sync_once` never consults
the tombstone, so a tombstoned path whose stale local file (`mtime_ms = 0 ≤
deleted_at_ms = 100`) is present while the remote record is absent is decided
as a fresh upload (`upload_new_local`). -/
theorem tombstoned_path_reuploaded_from_stale_local :
    let l : LocalFileInfo :=
      { relpath := "a.txt", abs_path := "/r/a.txt", size := 1, mtime_ms := 0, sha256 := "h" }
    let t : TombstoneRow :=
      { task_id := "t", cloud_file_id := "f", local_relpath := "a.txt",
        deleted_at_ms := 100, origin := "remote" }
    l.mtime_ms ≤ t.deleted_at_ms
      ∧ decideAction (some l) none none (some t) = SyncAction.uploadNewLocal := by
  exact ⟨by decide, by decide⟩

/-! ## Claim C2 -/

/-- C2: the claim "when both sides are present with a journal entry, both
changed, and the hashes agree, the pass takes no action" fails on the code:
with equal hashes the conflict guard is skipped but `prefer_local` still
selects an upload (here `local.mtime_ms = 5 ≥ remote.mtime_ms = 3`), so the
identical content is re-uploaded rather than left alone. -/
theorem equal_hash_double_change_takes_action :
    let l : LocalFileInfo :=
      { relpath := "e.txt", abs_path := "/r/e.txt", size := 1, mtime_ms := 5, sha256 := "h1" }
    let r : RemoteFileInfo :=
      { file_id := "f", uri := "cloudreve://root/Work/e.txt", relpath := "e.txt", size := 1,
        mtime_ms := 3, sha256 := "h1", deleted_at_ms := none, metadata := [] }
    let e : EntryRow :=
      { task_id := "t", local_relpath := "e.txt", cloud_file_id := "f", cloud_uri := "u",
        last_local_mtime_ms := 0, last_local_sha256 := "h0", last_remote_mtime_ms := 0,
        last_remote_sha256 := "h0", last_sync_ts_ms := 0, state := "ok" }
    localChanged (some e) l = true ∧ remoteChanged (some e) r = true
      ∧ l.sha256 = r.sha256 ∧ r.deleted_at_ms = none
      ∧ decideAction (some l) (some r) (some e) none = SyncAction.uploadLocal := by
  exact ⟨by decide, by decide, by decide, by decide, by decide⟩

/-- C2 (amended): when both sides are present (the remote not marked deleted),
a journal entry exists, both `local_changed` and `remote_changed` hold, and
the hashes agree, the pass records no conflict, but it does act: it re-uploads
the local copy when `local.mtime_ms ≥ remote.mtime_ms` and re-downloads the
remote copy otherwise. -/
theorem equal_hash_double_change_resync
    (l : LocalFileInfo) (r : RemoteFileInfo) (e : EntryRow) (t? : Option TombstoneRow)
    (hdel : r.deleted_at_ms = none)
    (hlc : localChanged (some e) l = true)
    (hrc : remoteChanged (some e) r = true)
    (hhash : l.sha256 = r.sha256) :
    decideAction (some l) (some r) (some e) t? =
      (if l.mtime_ms ≥ r.mtime_ms then SyncAction.uploadLocal else SyncAction.downloadRemote)
      ∧ decideAction (some l) (some r) (some e) t? ≠ SyncAction.conflict := by
  have hmain : decideAction (some l) (some r) (some e) t? =
      (if l.mtime_ms ≥ r.mtime_ms then SyncAction.uploadLocal else SyncAction.downloadRemote) := by
    simp [decideAction, remoteDeletedFlag, hdel, hlc, hrc, hhash]
  refine ⟨hmain, ?_⟩
  rw [hmain]
  split <;> simp

/-- C2 (amended), witness: the amended theorem applied at the concrete
double-modified pair with equal hashes used in the counterexample. -/
theorem equal_hash_double_change_resync_witness :
    decideAction
      (some { relpath := "e.txt", abs_path := "/r/e.txt", size := 1, mtime_ms := 5, sha256 := "h1" })
      (some { file_id := "f", uri := "cloudreve://root/Work/e.txt", relpath := "e.txt", size := 1,
              mtime_ms := 3, sha256 := "h1", deleted_at_ms := none, metadata := [] })
      (some { task_id := "t", local_relpath := "e.txt", cloud_file_id := "f", cloud_uri := "u",
              last_local_mtime_ms := 0, last_local_sha256 := "h0", last_remote_mtime_ms := 0,
              last_remote_sha256 := "h0", last_sync_ts_ms := 0, state := "ok" })
      none =
      (if (5 : Int) ≥ 3 then SyncAction.uploadLocal else SyncAction.downloadRemote) := by
  exact (equal_hash_double_change_resync _ _ _ none (by decide) (by decide) (by decide)
    (by decide)).1

/-! ## Claim C4 -/

/-- C4: every journal entry written by a successful reconciliation action
(`upload_new_local`, `upload_local`, `download_new_remote`, `download_remote`)
has `state = "ok"`, equal local and remote hashes, and equal local and remote
mtimes; hence `state = "ok"` entries produced by the engine satisfy
`last_local_sha256 = last_remote_sha256`. -/
theorem journal_entries_ok_and_agree (task_id uri : String) (l : LocalFileInfo)
    (r : RemoteFileInfo) (now : Int) :
    ((uploadNewLocalEntry task_id uri l now).state = "ok"
      ∧ (uploadNewLocalEntry task_id uri l now).last_local_sha256
          = (uploadNewLocalEntry task_id uri l now).last_remote_sha256
      ∧ (uploadNewLocalEntry task_id uri l now).last_local_mtime_ms
          = (uploadNewLocalEntry task_id uri l now).last_remote_mtime_ms)
    ∧ ((uploadLocalEntry task_id l r now).state = "ok"
      ∧ (uploadLocalEntry task_id l r now).last_local_sha256
          = (uploadLocalEntry task_id l r now).last_remote_sha256
      ∧ (uploadLocalEntry task_id l r now).last_local_mtime_ms
          = (uploadLocalEntry task_id l r now).last_remote_mtime_ms)
    ∧ ((downloadNewRemoteEntry task_id r now).state = "ok"
      ∧ (downloadNewRemoteEntry task_id r now).last_local_sha256
          = (downloadNewRemoteEntry task_id r now).last_remote_sha256
      ∧ (downloadNewRemoteEntry task_id r now).last_local_mtime_ms
          = (downloadNewRemoteEntry task_id r now).last_remote_mtime_ms)
    ∧ ((downloadRemoteEntry task_id l r now).state = "ok"
      ∧ (downloadRemoteEntry task_id l r now).last_local_sha256
          = (downloadRemoteEntry task_id l r now).last_remote_sha256
      ∧ (downloadRemoteEntry task_id l r now).last_local_mtime_ms
          = (downloadRemoteEntry task_id l r now).last_remote_mtime_ms) :=
  ⟨⟨rfl, rfl, rfl⟩, ⟨rfl, rfl, rfl⟩, ⟨rfl, rfl, rfl⟩, ⟨rfl, rfl, rfl⟩⟩

/-! ## Claim C6 -/

/-- C6: a whole-file PUT that fails with `FileTooLarge` is not surfaced:
`upload_content` succeeds outright when the PUT succeeds, falls back to the
chunked upload when the PUT fails with a `FileTooLarge` error (succeeding when
the fallback succeeds, failing exactly when the fallback fails), and fails
when the PUT fails with any other error. -/
theorem upload_content_file_too_large_fallback
    (relpath : String) (e : SyncError) (fb : Except SyncError Unit) :
    (uploadContentResult relpath (Except.ok ()) fb = Except.ok ())
    ∧ (is_file_too_large e = true →
        uploadContentResult relpath (Except.error e) (Except.ok ()) = Except.ok ())
    ∧ (is_file_too_large e = true → fb.isOk = false →
        (uploadContentResult relpath (Except.error e) fb).isOk = false)
    ∧ (is_file_too_large e = false →
        (uploadContentResult relpath (Except.error e) fb).isOk = false) := by
  refine ⟨rfl, ?_, ?_, ?_⟩
  · intro hftl
    simp [uploadContentResult, hftl]
  · intro hftl hfb
    cases fb with
    | ok u => simp [Except.isOk, Except.toBool] at hfb
    | error u =>
      by_cases hu : is_file_too_large u = true
      · simp [uploadContentResult, hftl, hu, Except.isOk, Except.toBool]
      · simp [uploadContentResult, hftl, hu, Except.isOk, Except.toBool]
  · intro hftl
    simp [uploadContentResult, hftl, Except.isOk, Except.toBool]

/-- C6, witness: the fallback behaviour at a concrete `FileTooLarge` PUT
failure whose chunked fallback fails with another error. -/
theorem upload_content_file_too_large_fallback_witness :
    is_file_too_large (SyncError.cloudreve CloudreveError.fileTooLarge) = true
      ∧ (Except.error (SyncError.message "boom") : Except SyncError Unit).isOk = false
      ∧ (uploadContentResult "a.txt" (Except.error (SyncError.cloudreve CloudreveError.fileTooLarge))
          (Except.error (SyncError.message "boom"))).isOk = false :=
  ⟨by decide, by decide,
    (upload_content_file_too_large_fallback "a.txt"
      (SyncError.cloudreve CloudreveError.fileTooLarge)
      (Except.error (SyncError.message "boom"))).2.2.1 (by decide) (by decide)⟩

/-! ## Claim C10 -/

theorem applyEvent_mono (s : SyncStats) (ev : StatEvent) (hb : boundedStats s) :
    statsLe s (applyEvent s ev) ∧ boundedStats (applyEvent s ev) := by
  obtain ⟨h1, h2, h3⟩ := hb
  cases ev <;>
    simp [applyEvent, statsLe, boundedStats, satAdd64, satAdd32] <;>
    omega

theorem applyEvents_mono (events : List StatEvent) (s : SyncStats) (hb : boundedStats s) :
    statsLe s (applyEvents s events) ∧ boundedStats (applyEvents s events) := by
  induction events generalizing s with
  | nil => exact ⟨⟨le_refl _, le_refl _, le_refl _⟩, hb⟩
  | cons ev rest ih =>
    obtain ⟨hstep, hbound⟩ := applyEvent_mono s ev hb
    obtain ⟨hrest, hrestBound⟩ := ih (applyEvent s ev) hbound
    refine ⟨?_, ?_⟩
    · obtain ⟨a1, a2, a3⟩ := hstep
      obtain ⟨b1, b2, b3⟩ := hrest
      exact ⟨le_trans a1 b1, le_trans a2 b2, le_trans a3 b3⟩
    · exact hrestBound

/-- C10: within one pass the stats counters never decrease and never overflow:
every update site performs a saturating addition, so from any in-bounds stats
value, one update — and hence any sequence of updates, i.e. any later
observer invocation — yields pointwise greater-or-equal, still in-bounds
values. -/
theorem stats_monotone_saturating (s : SyncStats) (ev : StatEvent)
    (events : List StatEvent) (hb : boundedStats s) :
    statsLe s (applyEvent s ev) ∧ boundedStats (applyEvent s ev)
      ∧ statsLe s (applyEvents s events) ∧ boundedStats (applyEvents s events) := by
  obtain ⟨h1, h2⟩ := applyEvent_mono s ev hb
  obtain ⟨h3, h4⟩ := applyEvents_mono events s hb
  exact ⟨h1, h2, h3, h4⟩

/-- C10, witness: the monotonicity theorem applied to the empty stats value,
one download of 5 bytes, and a concrete update sequence. -/
theorem stats_monotone_saturating_witness :
    statsLe { uploaded_bytes := 0, downloaded_bytes := 0, operations := 0 }
        (applyEvent { uploaded_bytes := 0, downloaded_bytes := 0, operations := 0 }
          (StatEvent.download 5))
      ∧ boundedStats (applyEvent { uploaded_bytes := 0, downloaded_bytes := 0, operations := 0 }
          (StatEvent.download 5))
      ∧ statsLe { uploaded_bytes := 0, downloaded_bytes := 0, operations := 0 }
          (applyEvents { uploaded_bytes := 0, downloaded_bytes := 0, operations := 0 }
            [StatEvent.uploadOk 7, StatEvent.chunk 3, StatEvent.fallbackOp])
      ∧ boundedStats (applyEvents { uploaded_bytes := 0, downloaded_bytes := 0, operations := 0 }
          [StatEvent.uploadOk 7, StatEvent.chunk 3, StatEvent.fallbackOp]) :=
  stats_monotone_saturating
    { uploaded_bytes := 0, downloaded_bytes := 0, operations := 0 }
    (StatEvent.download 5)
    [StatEvent.uploadOk 7, StatEvent.chunk 3, StatEvent.fallbackOp]
    (by refine ⟨by norm_num, by norm_num, by norm_num⟩)

/-! ## Claim C8 -/

/-- C8: "any per-file I/O error encountered while enumerating is surfaced"
fails on the code: `scan_local` filters the `WalkDir` results through
`filter_map(Result::ok)`, so an `Err` yielded during enumeration is silently
dropped and the scan returns a partial `Ok` list that omits the affected
entry instead of an error. -/
theorem scan_local_swallows_walk_error :
    scan_local ("/r") (fun _ => Except.ok ("h"))
      [Except.error ("denied"),
       Except.ok { isFile := true, absPath := "/r/a.txt",
                   meta := Except.ok { len := 3, modifiedMs := Except.ok 7 } }]
    = Except.ok [{ relpath := "a.txt", abs_path := "/r/a.txt", size := 3,
                   mtime_ms := 7, sha256 := "h" }] := by
  decide

theorem hashSeeds_isErr (hashFn : String → Except String String)
    (seeds : List LocalFileSeed) (s : LocalFileSeed) (hmem : s ∈ seeds)
    (hfail : (hashFn s.abs_path).isOk = false) :
    (hashSeeds hashFn seeds).isOk = false := by
  induction seeds with
  | nil => cases hmem
  | cons t rest ih =>
    rcases List.mem_cons.mp hmem with heq | hmem2
    · subst heq
      cases hht : hashFn s.abs_path with
      | error msg => simp [hashSeeds, hht, Except.isOk, Except.toBool]
      | ok h => rw [hht] at hfail; simp [Except.isOk, Except.toBool] at hfail
    · cases hht : hashFn t.abs_path with
      | error msg => simp [hashSeeds, hht, Except.isOk, Except.toBool]
      | ok h =>
        have hrest := ih hmem2
        cases hrec : hashSeeds hashFn rest with
        | error msg => simp [hashSeeds, hht, hrec, Except.isOk, Except.toBool]
        | ok out => rw [hrec] at hrest; simp [Except.isOk, Except.toBool] at hrest

/-- C8 (amended): per-file errors in reading metadata, in reading the
modification time, and in hashing are surfaced by `scan_local` as an `Err`
(the scan does not return a partial list omitting such a file), but an `Err`
yielded by the directory walk itself is silently skipped
(`filter_map(Result::ok)`), the pass proceeding without that entry. -/
theorem scan_local_error_surfacing
    (root msg : String) (hashFn : String → Except String String)
    (walk : List (Except String WalkEntry)) (e : WalkEntry) :
    (scan_local root hashFn (Except.error msg :: walk) = scan_local root hashFn walk)
    ∧ (e.isFile = true → e.meta = Except.error msg →
        scan_local root hashFn (Except.ok e :: walk) = Except.error msg)
    ∧ (∀ m, e.isFile = true → e.meta = Except.ok m → m.modifiedMs = Except.error msg →
        scan_local root hashFn (Except.ok e :: walk) = Except.error msg)
    ∧ (∀ seeds s, buildSeeds root walk = Except.ok seeds → s ∈ seeds →
        (hashFn s.abs_path).isOk = false →
        (scan_local root hashFn walk).isOk = false) := by
  refine ⟨rfl, ?_, ?_, ?_⟩
  · intro hfile hmeta
    simp [scan_local, buildSeeds, hfile, hmeta]
  · intro m hfile hmeta hmod
    simp [scan_local, buildSeeds, hfile, hmeta, hmod]
  · intro seeds s hseeds hmem hfail
    simp only [scan_local, hseeds]
    exact hashSeeds_isErr hashFn seeds s hmem hfail

/-- C8 (amended), witness: a metadata failure on a concrete walk makes the
scan fail. -/
theorem scan_local_error_surfacing_witness :
    scan_local ("/r") (fun _ => Except.ok ("h"))
      [Except.ok { isFile := true, absPath := "/r/bad.txt", meta := Except.error ("io") }]
    = Except.error ("io") :=
  (scan_local_error_surfacing ("/r") ("io") (fun _ => Except.ok ("h")) []
    { isFile := true, absPath := "/r/bad.txt", meta := Except.error ("io") }).2.1
    (by decide) (by decide)

/-! ## Claim C3 -/

theorem joinPath_right_inj (root a b : String) (h : joinPath root a = joinPath root b) :
    a = b := by
  have hdata : (root ++ "/").data ++ a.data = (root ++ "/").data ++ b.data := by
    have h1 : (root ++ "/" ++ a).data = (root ++ "/" ++ b).data := congrArg String.data h
    simpa [String.data_append] using h1
  have hab : a.data = b.data := List.append_cancel_left hdata
  cases a
  cases b
  exact congrArg String.mk hab

/-- C3: the conflict handler is frame-preserving on the originals: the effect
trace of `handle_conflict` never writes, overwrites or removes the original
local file, never uploads to or patches the original remote URI, and writes
no journal entry; it inserts exactly one conflict row (with reason
`both_modified` referencing the original relpath), performs exactly one local
conflict copy, and exactly one remote upload (of the conflict copy). -/
theorem handle_conflict_frame_and_artifacts
    (local_root device_id remote_root_uri task_id timestamp : String)
    (l : LocalFileInfo) (r : RemoteFileInfo) (now : Int)
    (habs : l.abs_path = joinPath local_root l.relpath)
    (hrel : conflictRelpathOf l.relpath device_id timestamp ≠ l.relpath)
    (huri : build_remote_uri remote_root_uri (conflictRelpathOf l.relpath device_id timestamp)
      ≠ r.uri) :
    (∀ eff ∈ handleConflictEffects local_root device_id remote_root_uri task_id l timestamp now,
        touchesLocalFile l.abs_path eff = false)
    ∧ (∀ eff ∈ handleConflictEffects local_root device_id remote_root_uri task_id l timestamp now,
        touchesRemoteUri r.uri eff = false)
    ∧ (∀ eff ∈ handleConflictEffects local_root device_id remote_root_uri task_id l timestamp now,
        isUpsertEntry eff = false)
    ∧ (handleConflictEffects local_root device_id remote_root_uri task_id l timestamp
        now).countP isInsertConflict = 1
    ∧ (∀ row, Effect.insertConflict row
          ∈ handleConflictEffects local_root device_id remote_root_uri task_id l timestamp now →
        row.reason = "both_modified" ∧ row.original_relpath = l.relpath)
    ∧ (handleConflictEffects local_root device_id remote_root_uri task_id l timestamp
        now).countP isCopyLocal = 1
    ∧ (handleConflictEffects local_root device_id remote_root_uri task_id l timestamp
        now).countP isUploadRemote = 1 := by
  have hdst : joinPath local_root (conflictRelpathOf l.relpath device_id timestamp)
      ≠ l.abs_path := by
    intro heq
    rw [habs] at heq
    exact hrel (joinPath_right_inj local_root _ _ heq)
  refine ⟨?_, ?_, ?_, ?_, ?_, ?_, ?_⟩
  · intro eff hmem
    simp only [handleConflictEffects, List.mem_cons, List.not_mem_nil, or_false] at hmem
    rcases hmem with h | h | h | h | h <;> subst h <;>
      simp [touchesLocalFile, hdst]
  · intro eff hmem
    simp only [handleConflictEffects, List.mem_cons, List.not_mem_nil, or_false] at hmem
    rcases hmem with h | h | h | h | h <;> subst h <;>
      simp [touchesRemoteUri, huri]
  · intro eff hmem
    simp only [handleConflictEffects, List.mem_cons, List.not_mem_nil, or_false] at hmem
    rcases hmem with h | h | h | h | h <;> subst h <;> simp [isUpsertEntry]
  · simp [handleConflictEffects, List.countP_cons, isInsertConflict]
  · intro row hmem
    simp only [handleConflictEffects, List.mem_cons, List.not_mem_nil, or_false] at hmem
    rcases hmem with h | h | h | h | h <;> cases h
    exact ⟨rfl, rfl⟩
  · simp [handleConflictEffects, List.countP_cons, isCopyLocal]
  · simp [handleConflictEffects, List.countP_cons, isUploadRemote]

/-- C3, witness: the frame theorem at a concrete conflicting pair, extracting
the single conflict-row insertion. -/
theorem handle_conflict_frame_and_artifacts_witness :
    (handleConflictEffects ("/r") ("dev") ("cloudreve://root/Work") ("t")
      { relpath := "e.txt", abs_path := "/r/e.txt", size := 1, mtime_ms := 5, sha256 := "h1" }
      ("20260101-000000") 9).countP isInsertConflict = 1 :=
  (handle_conflict_frame_and_artifacts ("/r") ("dev") ("cloudreve://root/Work") ("t")
    ("20260101-000000")
    { relpath := "e.txt", abs_path := "/r/e.txt", size := 1, mtime_ms := 5, sha256 := "h1" }
    { file_id := "f", uri := "cloudreve://root/Work/e.txt", relpath := "e.txt", size := 1,
      mtime_ms := 3, sha256 := "h2", deleted_at_ms := none, metadata := [] }
    9 (by decide) (by decide) (by decide)).2.2.2.1

/-! ## Claim C7 -/

/-- C7: remote-record normalization: a directory record, or one whose derived
relpath is empty, contributes nothing to the remote map; for every record that
is kept, the key is the derived relpath, the hash is the `sync_sha256`
metadata value (empty string when absent), and the mtime is the parsed
`sync_mtime_ms` metadata value when present and parseable, else the parsed
`updated_at` (abstracted by `rfcParse`), else the current time `now` — the
spec's cascade, written as nested matches, agrees with the code's
`and_then`/`unwrap_or_else` chain. -/
theorem to_remote_map_normalization
    (rfcParse : String → Option Int) (now : Int) (root : String)
    (f : RemoteFile) (files : List RemoteFile) :
    (f.is_dir = true →
        mkRemoteInfo rfcParse now root f = none
        ∧ to_remote_map rfcParse now (f :: files) root = to_remote_map rfcParse now files root)
    ∧ (String.mk (relFromUriChars (uriPathChars root.data) (uriPathChars f.uri.data)) = "" →
        mkRemoteInfo rfcParse now root f = none
        ∧ to_remote_map rfcParse now (f :: files) root = to_remote_map rfcParse now files root)
    ∧ (∀ rel info, mkRemoteInfo rfcParse now root f = some (rel, info) →
        rel = String.mk (relFromUriChars (uriPathChars root.data) (uriPathChars f.uri.data))
        ∧ info.sha256 = (match List.lookup META_SHA256 f.metadata with
            | some v => v
            | none => "")
        ∧ info.mtime_ms = (match List.lookup META_MTIME f.metadata with
            | some v =>
              (match parseI64Chars v.data with
               | some n => n
               | none => (match rfcParse f.updated_at with | some u => u | none => now))
            | none => (match rfcParse f.updated_at with | some u => u | none => now))) := by
  refine ⟨?_, ?_, ?_⟩
  · intro hd
    exact ⟨by simp [mkRemoteInfo, hd], by simp [to_remote_map, mkRemoteInfo, hd]⟩
  · intro hre
    by_cases hd : f.is_dir = true
    · exact ⟨by simp [mkRemoteInfo, hd], by simp [to_remote_map, mkRemoteInfo, hd]⟩
    · exact ⟨by simp [mkRemoteInfo, hd, hre], by simp [to_remote_map, mkRemoteInfo, hd, hre]⟩
  · intro rel info hsome
    by_cases hd : f.is_dir = true
    · simp [mkRemoteInfo, hd] at hsome
    · by_cases hre :
        String.mk (relFromUriChars (uriPathChars root.data) (uriPathChars f.uri.data)) = ""
      · simp [mkRemoteInfo, hd, hre] at hsome
      · simp only [mkRemoteInfo, hd, hre, if_false, Bool.false_eq_true, if_neg,
          Option.some.injEq, Prod.mk.injEq] at hsome
        obtain ⟨hrel_eq, hinfo⟩ := hsome
        subst hinfo
        refine ⟨hrel_eq.symm, ?_, ?_⟩
        · cases List.lookup META_SHA256 f.metadata <;> simp
        · cases List.lookup META_MTIME f.metadata with
          | none =>
            cases hrf : rfcParse f.updated_at <;> simp [parse_updated_at, hrf]
          | some v =>
            cases hp : parseI64Chars v.data with
            | none => cases hrf : rfcParse f.updated_at <;>
                simp [parse_updated_at, hp, hrf]
            | some n => simp [hp]

/-- C7, witness: the normalization theorem applied to a concrete kept record
carrying both metadata keys. -/
theorem to_remote_map_normalization_witness :
    mkRemoteInfo (fun _ => some 999) 7 ("cloudreve://root/Work")
      { id := "file", name := "a", uri := "cloudreve://root/Work/a.txt", size := 10,
        updated_at := "2024-01-01T00:00:00Z",
        metadata := [(META_SHA256, "abc"), (META_MTIME, "123")], is_dir := false }
      = some ("a.txt",
        { file_id := "file", uri := "cloudreve://root/Work/a.txt", relpath := "a.txt",
          size := 10, mtime_ms := 123, sha256 := "abc", deleted_at_ms := none,
          metadata := [(META_SHA256, "abc"), (META_MTIME, "123")] })
    ∧ (123 : Int) = (match List.lookup META_MTIME
          [(META_SHA256, ("abc" : String)), (META_MTIME, "123")] with
        | some v =>
          (match parseI64Chars v.data with
           | some n => n
           | none => (match (fun (_ : String) => some (999 : Int)) "2024-01-01T00:00:00Z" with
                      | some u => u | none => (7 : Int)))
        | none => (match (fun (_ : String) => some (999 : Int)) "2024-01-01T00:00:00Z" with
                   | some u => u | none => (7 : Int))) := by
  refine ⟨by decide, ?_⟩
  exact (((to_remote_map_normalization (fun _ => some 999) 7 ("cloudreve://root/Work")
      { id := "file", name := "a", uri := "cloudreve://root/Work/a.txt", size := 10,
        updated_at := "2024-01-01T00:00:00Z",
        metadata := [(META_SHA256, "abc"), (META_MTIME, "123")], is_dir := false }
      []).2.2 ("a.txt")
        { file_id := "file", uri := "cloudreve://root/Work/a.txt", relpath := "a.txt",
          size := 10, mtime_ms := 123, sha256 := "abc", deleted_at_ms := none,
          metadata := [(META_SHA256, "abc"), (META_MTIME, "123")] }
        (by decide)).2.2.symm.trans (by decide)).symm

/-! ## Claim C5 -/

theorem chunksGo_cons (m idx a : Nat) (rest : List Nat) :
    chunksGo m idx (a :: rest)
      = (idx, (a :: rest).take (m + 1)) :: chunksGo m (idx + 1) ((a :: rest).drop (m + 1)) := by
  rw [chunksGo]

theorem chunksGo_nil (m idx : Nat) : chunksGo m idx [] = [] := by
  rw [chunksGo]

theorem chunksGo_eq_nil_iff (m idx : Nat) (c : List Nat) :
    chunksGo m idx c = [] ↔ c = [] := by
  cases c with
  | nil => simp [chunksGo_nil]
  | cons a rest => simp [chunksGo_cons]

theorem chunksGo_join (m : Nat) :
    ∀ (n : Nat) (c : List Nat) (idx : Nat), c.length ≤ n →
      ((chunksGo m idx c).map Prod.snd).flatten = c := by
  intro n
  induction n with
  | zero =>
    intro c idx hc
    have hnil : c = [] := List.length_eq_zero.mp (Nat.le_zero.mp hc)
    subst hnil
    simp [chunksGo_nil]
  | succ n ih =>
    intro c idx hc
    cases c with
    | nil => simp [chunksGo_nil]
    | cons a rest =>
      rw [chunksGo_cons]
      simp only [List.map_cons, List.flatten_cons]
      rw [ih ((a :: rest).drop (m + 1)) (idx + 1)
        (by simp only [List.length_drop, List.length_cons] at hc ⊢; omega)]
      exact List.take_append_drop (m + 1) (a :: rest)

theorem chunksGo_length (m : Nat) :
    ∀ (n : Nat) (c : List Nat) (idx : Nat), c.length ≤ n →
      (chunksGo m idx c).length = (c.length + m) / (m + 1) := by
  intro n
  induction n with
  | zero =>
    intro c idx hc
    have hnil : c = [] := List.length_eq_zero.mp (Nat.le_zero.mp hc)
    subst hnil
    simp [chunksGo_nil, Nat.div_eq_of_lt (Nat.lt_succ_self m)]
  | succ n ih =>
    intro c idx hc
    cases c with
    | nil => simp [chunksGo_nil, Nat.div_eq_of_lt (Nat.lt_succ_self m)]
    | cons a rest =>
      rw [chunksGo_cons]
      simp only [List.length_cons]
      rw [ih ((a :: rest).drop (m + 1)) (idx + 1)
        (by simp only [List.length_drop, List.length_cons] at hc ⊢; omega)]
      simp only [List.length_drop, List.length_cons]
      rcases Nat.le_total (rest.length + 1) (m + 1) with hle | hgt
      · have h1 : rest.length + 1 - (m + 1) = 0 := by omega
        have h2 : rest.length + 1 + m = rest.length + (m + 1) := by omega
        rw [h1, h2, Nat.add_div_right _ (Nat.succ_pos m),
          Nat.div_eq_of_lt (by omega), Nat.div_eq_of_lt (by omega)]
      · have h2 : rest.length + 1 + m = (rest.length + 1 - (m + 1) + m) + (m + 1) := by omega
        rw [h2, Nat.add_div_right _ (Nat.succ_pos m)]

theorem chunksGo_map_fst (m : Nat) :
    ∀ (n : Nat) (c : List Nat) (idx : Nat), c.length ≤ n →
      (chunksGo m idx c).map Prod.fst = List.range' idx (chunksGo m idx c).length := by
  intro n
  induction n with
  | zero =>
    intro c idx hc
    have hnil : c = [] := List.length_eq_zero.mp (Nat.le_zero.mp hc)
    subst hnil
    simp [chunksGo_nil]
  | succ n ih =>
    intro c idx hc
    cases c with
    | nil => simp [chunksGo_nil]
    | cons a rest =>
      rw [chunksGo_cons]
      simp only [List.map_cons, List.length_cons]
      rw [ih ((a :: rest).drop (m + 1)) (idx + 1)
        (by simp only [List.length_drop, List.length_cons] at hc ⊢; omega)]
      rw [List.range'_succ idx (chunksGo m (idx + 1) ((a :: rest).drop (m + 1))).length 1]

theorem chunksGo_mid_sizes (m : Nat) :
    ∀ (n : Nat) (c : List Nat) (idx : Nat), c.length ≤ n →
      ∀ p ∈ (chunksGo m idx c).dropLast, p.2.length = m + 1 := by
  intro n
  induction n with
  | zero =>
    intro c idx hc
    have hnil : c = [] := List.length_eq_zero.mp (Nat.le_zero.mp hc)
    subst hnil
    simp [chunksGo_nil]
  | succ n ih =>
    intro c idx hc
    cases c with
    | nil => simp [chunksGo_nil]
    | cons a rest =>
      rw [chunksGo_cons]
      rcases le_or_lt (rest.length + 1) (m + 1) with hle | hgt
      · have hdrop : (a :: rest).drop (m + 1) = [] :=
          List.drop_eq_nil_of_le (by simp only [List.length_cons]; omega)
        rw [hdrop, chunksGo_nil]
        simp
      · have hdropLen : ((a :: rest).drop (m + 1)).length ≤ n := by
          simp only [List.length_drop, List.length_cons]
          simp only [List.length_cons] at hc
          omega
        have hne : chunksGo m (idx + 1) ((a :: rest).drop (m + 1)) ≠ [] := by
          rw [Ne, chunksGo_eq_nil_iff]
          intro hnil
          have := congrArg List.length hnil
          simp only [List.length_drop, List.length_cons, List.length_nil] at this
          omega
        rw [List.dropLast_cons_of_ne_nil hne]
        intro p hp
        rcases List.mem_cons.mp hp with heq | hmem
        · subst heq
          simp only [List.length_take, List.length_cons]
          omega
        · exact ih ((a :: rest).drop (m + 1)) (idx + 1) hdropLen p hmem

theorem effectiveChunkSize_pos (scs len : Nat) : 1 ≤ effectiveChunkSize scs len := by
  unfold effectiveChunkSize
  split <;> omega

/-- C5: chunked-upload decomposition: the effective chunk size is the
session's `chunk_size` when positive and `max(len, 1)` otherwise; the chunk
indices passed to `upload_chunk` are exactly `0, 1, …, ⌈len/chunk_size⌉ - 1`
in increasing order; every chunk except possibly the last has exactly the
effective chunk size; and the concatenation of the chunks is the content. -/
theorem upload_with_session_decomposition (scs : Nat) (content : List Nat) :
    ((uploadChunkCalls scs content).map Prod.fst
        = List.range ((content.length + effectiveChunkSize scs content.length - 1)
            / effectiveChunkSize scs content.length))
    ∧ ((uploadChunkCalls scs content).map Prod.snd).flatten = content
    ∧ (∀ p ∈ (uploadChunkCalls scs content).dropLast,
        p.2.length = effectiveChunkSize scs content.length)
    ∧ (0 < scs → effectiveChunkSize scs content.length = scs)
    ∧ (scs = 0 → effectiveChunkSize scs content.length = max content.length 1) := by
  have hcs : 1 ≤ effectiveChunkSize scs content.length :=
    effectiveChunkSize_pos scs content.length
  have hm : effectiveChunkSize scs content.length - 1 + 1
      = effectiveChunkSize scs content.length := by omega
  refine ⟨?_, ?_, ?_, ?_, ?_⟩
  · rw [uploadChunkCalls,
      chunksGo_map_fst _ content.length content 0 (le_refl _),
      chunksGo_length _ content.length content 0 (le_refl _),
      List.range_eq_range', hm]
    have harg : content.length + effectiveChunkSize scs content.length - 1
        = content.length + (effectiveChunkSize scs content.length - 1) := by omega
    rw [harg]
  · exact chunksGo_join _ content.length content 0 (le_refl _)
  · intro p hp
    have := chunksGo_mid_sizes (effectiveChunkSize scs content.length - 1)
      content.length content 0 (le_refl _) p hp
    rw [hm] at this
    exact this
  · intro h
    simp [effectiveChunkSize, h]
  · intro h
    simp [effectiveChunkSize, h]

/-- C5, witness: the decomposition theorem at chunk size 2 and a five-byte
content, extracting the concatenation property. -/
theorem upload_with_session_decomposition_witness :
    ((uploadChunkCalls 2 [1, 2, 3, 4, 5]).map Prod.snd).flatten = [1, 2, 3, 4, 5] :=
  (upload_with_session_decomposition 2 [1, 2, 3, 4, 5]).2.1

/-! ## Claim C9 -/

theorem isPrefixOf_append_self (l t : List Char) : l.isPrefixOf (l ++ t) = true := by
  induction l with
  | nil => simp [List.isPrefixOf]
  | cons a as ih => simp [List.isPrefixOf, ih]

theorem findSub_of_isPre (needle hay : List Char) (h : needle.isPrefixOf hay = true) :
    findSub needle hay = some 0 := by
  cases hay with
  | nil => simp [findSub, h]
  | cons c rest => simp [findSub, h]

theorem findCharIdx_slash (auth tail : List Char) (hauth : ∀ c ∈ auth, (c == '/') = false) :
    findCharIdx (fun c => c == '/') (auth ++ '/' :: tail) = some auth.length := by
  induction auth with
  | nil => simp [findCharIdx]
  | cons c cs ih =>
    have hc : (c == '/') = false := hauth c (List.mem_cons_self c cs)
    have hrest : ∀ x ∈ cs, (x == '/') = false := fun x hx => hauth x (List.mem_cons_of_mem c hx)
    simp [findCharIdx, hc, ih hrest]

theorem uriPathChars_scheme (auth tail : List Char)
    (hnq : ∀ c ∈ auth ++ '/' :: tail, (c != '?') = true)
    (hauth : ∀ c ∈ auth, (c == '/') = false) :
    uriPathChars (("cloudreve://").data ++ (auth ++ '/' :: tail))
      = percentDecodeChars ('/' :: tail) := by
  have hnq2 : ∀ c ∈ ("cloudreve://").data ++ (auth ++ '/' :: tail), (c != '?') = true := by
    intro c hc
    rcases List.mem_append.mp hc with h | h
    · exact (by decide : ∀ x ∈ ("cloudreve://").data, (x != '?') = true) c h
    · exact hnq c h
  have h1 : (("cloudreve://").data ++ (auth ++ '/' :: tail)).takeWhile (fun c => c != '?')
      = ("cloudreve://").data ++ (auth ++ '/' :: tail) := List.takeWhile_eq_self_iff.mpr hnq2
  have h2 : findSub (("cloudreve://").data) (("cloudreve://").data ++ (auth ++ '/' :: tail))
      = some 0 :=
    findSub_of_isPre _ _ (isPrefixOf_append_self _ _)
  have h3 : (("cloudreve://").data ++ (auth ++ '/' :: tail)).drop
        (0 + ("cloudreve://").data.length) = auth ++ '/' :: tail := by
    rw [Nat.zero_add]
    exact List.drop_left _ _
  have h4 : findCharIdx (fun c => c == '/') (auth ++ '/' :: tail) = some auth.length :=
    findCharIdx_slash auth tail hauth
  have h5 : (auth ++ '/' :: tail).drop auth.length = '/' :: tail := List.drop_left _ _
  simp only [uriPathChars, h1, h2, h3, h4, h5]

theorem trimEndSlashes_of_getLast (l : List Char) (h : l.getLast? ≠ some '/') :
    trimEndSlashes l = l := by
  unfold trimEndSlashes
  cases hrev : l.reverse with
  | nil =>
    have : l = [] := by simpa using congrArg List.reverse hrev
    subst this
    simp
  | cons a t =>
    have ha : a ≠ '/' := by
      intro heq
      apply h
      rw [← List.head?_reverse, hrev, heq]
      rfl
    have hb : (a == '/') = false := beq_eq_false_iff_ne.mpr ha
    rw [List.dropWhile_cons_of_neg (by simp [hb])]
    rw [← hrev, List.reverse_reverse]

theorem dropLeadSlashes_of_head (l : List Char) (h : l.head? ≠ some '/') :
    dropLeadSlashes l = l := by
  unfold dropLeadSlashes
  cases l with
  | nil => rfl
  | cons a t =>
    have ha : a ≠ '/' := by
      intro heq
      exact h (by rw [heq]; rfl)
    rw [List.dropWhile_cons_of_neg (by simp [ha])]

theorem stripPre_append_self (l t : List Char) : stripPre l (l ++ t) = t := by
  unfold stripPre
  rw [if_pos (isPrefixOf_append_self l t)]
  exact List.drop_left l t

/-- C9 (amended): `build_remote_uri` is plain concatenation (no
percent-re-encoding), and the round trip holds for plain segments: for every
root of the form `cloudreve://authority/path` whose authority has no `/`,
`?` or `%`, whose non-empty path has no `?` or `%` and does not end in `/`,
and every non-empty relpath with no leading `/` and no `?` or `%`, stripping
`uri_path(root)` from `uri_path(build_remote_uri(root, relpath))` and
trimming the leading `/` yields the relpath again.  (Percent-escapes or `?`
in a segment break the round trip, because `uri_path` percent-decodes and
truncates at `?` while `build_remote_uri` concatenates verbatim.) -/
theorem uri_round_trip_on_plain_segments
    (auth p rel : List Char)
    (hauth : ∀ c ∈ auth, c ≠ '/' ∧ c ≠ '?' ∧ c ≠ '%')
    (hp_ne : p ≠ [])
    (hp : ∀ c ∈ p, c ≠ '?' ∧ c ≠ '%')
    (hp_last : p.getLast? ≠ some '/')
    (hrel_ne : rel ≠ [])
    (hrel : ∀ c ∈ rel, c ≠ '?' ∧ c ≠ '%')
    (hrel_head : rel.head? ≠ some '/') :
    buildRemoteUriChars (("cloudreve://").data ++ (auth ++ '/' :: p)) rel
        = (("cloudreve://").data ++ (auth ++ '/' :: p)) ++ '/' :: rel
    ∧ relFromUriChars
        (uriPathChars (("cloudreve://").data ++ (auth ++ '/' :: p)))
        (uriPathChars (buildRemoteUriChars (("cloudreve://").data ++ (auth ++ '/' :: p)) rel))
      = rel := by
  have hroot_last : (("cloudreve://").data ++ (auth ++ '/' :: p)).getLast? ≠ some '/' := by
    rw [List.getLast?_append_of_ne_nil _ (by simp : auth ++ '/' :: p ≠ []),
      List.getLast?_append_of_ne_nil _ (by simp : ('/' : Char) :: p ≠ [])]
    have hcons : ('/' :: p).getLast? = p.getLast? := by
      have h2 := List.getLast?_append_of_ne_nil ['/'] hp_ne
      simpa using h2
    rw [hcons]
    exact hp_last
  have hbuild : buildRemoteUriChars (("cloudreve://").data ++ (auth ++ '/' :: p)) rel
      = (("cloudreve://").data ++ (auth ++ '/' :: p)) ++ '/' :: rel := by
    unfold buildRemoteUriChars
    rw [trimEndSlashes_of_getLast _ hroot_last, dropLeadSlashes_of_head rel hrel_head]
  have hauth_slash : ∀ c ∈ auth, (c == '/') = false := fun c hc =>
    beq_eq_false_iff_ne.mpr (hauth c hc).1
  have hrootPath : uriPathChars (("cloudreve://").data ++ (auth ++ '/' :: p)) = '/' :: p := by
    rw [uriPathChars_scheme auth p ?hnq hauth_slash]
    · apply percentDecode_no_pct
      intro c hc
      rcases List.mem_cons.mp hc with h | h
      · subst h; decide
      · exact (hp c h).2
    case hnq =>
      intro c hc
      rcases List.mem_append.mp hc with h | h
      · exact bne_iff_ne.mpr (hauth c h).2.1
      · rcases List.mem_cons.mp h with h2 | h2
        · subst h2; decide
        · exact bne_iff_ne.mpr (hp c h2).1
  have hfullShape : (("cloudreve://").data ++ (auth ++ '/' :: p)) ++ '/' :: rel
      = ("cloudreve://").data ++ (auth ++ '/' :: (p ++ '/' :: rel)) := by
    simp [List.append_assoc]
  have hfullPath : uriPathChars ((("cloudreve://").data ++ (auth ++ '/' :: p)) ++ '/' :: rel)
      = '/' :: (p ++ '/' :: rel) := by
    rw [hfullShape]
    rw [uriPathChars_scheme auth (p ++ '/' :: rel) ?hnq2 hauth_slash]
    · apply percentDecode_no_pct
      intro c hc
      rcases List.mem_cons.mp hc with h | h
      · subst h; decide
      · rcases List.mem_append.mp h with h2 | h2
        · exact (hp c h2).2
        · rcases List.mem_cons.mp h2 with h3 | h3
          · subst h3; decide
          · exact (hrel c h3).2
    case hnq2 =>
      intro c hc
      rcases List.mem_append.mp hc with h | h
      · exact bne_iff_ne.mpr (hauth c h).2.1
      · rcases List.mem_cons.mp h with h2 | h2
        · subst h2; decide
        · rcases List.mem_append.mp h2 with h3 | h3
          · exact bne_iff_ne.mpr (hp c h3).1
          · rcases List.mem_cons.mp h3 with h4 | h4
            · subst h4; decide
            · exact bne_iff_ne.mpr (hrel c h4).1
  refine ⟨hbuild, ?_⟩
  rw [hbuild, hrootPath, hfullPath]
  unfold relFromUriChars
  have hshape2 : '/' :: (p ++ '/' :: rel) = ('/' :: p) ++ '/' :: rel := by simp
  rw [hshape2, stripPre_append_self]
  have : dropLeadSlashes ('/' :: rel) = dropLeadSlashes rel := by
    unfold dropLeadSlashes
    rw [List.dropWhile_cons_of_pos (by decide)]
  rw [this, dropLeadSlashes_of_head rel hrel_head]

/-- C9: the claim's universally quantified inverse property fails on the
code: for root `cloudreve://root/Work` and relpath `a%20b` (non-empty, no
leading slash), `uri_path` percent-decodes, so stripping `uri_path(root)`
from `uri_path(build_remote_uri(root, relpath))` and trimming the leading
`/` yields `a b`, not the original `a%20b`. -/
theorem uri_round_trip_fails_on_percent_escape :
    String.mk (relFromUriChars (uri_path ("cloudreve://root/Work")).data
      (uri_path (build_remote_uri ("cloudreve://root/Work") ("a%20b"))).data) ≠ "a%20b" := by
  decide

/-- C9 (amended), witness: the round trip at the concrete root
`cloudreve://root/Work` and relpath `a b/c.txt`. -/
theorem uri_round_trip_on_plain_segments_witness :
    buildRemoteUriChars (("cloudreve://").data ++ (("root").data ++ '/' :: ("Work").data))
        (("a b/c.txt").data)
      = (("cloudreve://").data ++ (("root").data ++ '/' :: ("Work").data))
          ++ '/' :: ("a b/c.txt").data
    ∧ relFromUriChars
        (uriPathChars (("cloudreve://").data ++ (("root").data ++ '/' :: ("Work").data)))
        (uriPathChars (buildRemoteUriChars
          (("cloudreve://").data ++ (("root").data ++ '/' :: ("Work").data))
          (("a b/c.txt").data)))
      = ("a b/c.txt").data :=
  uri_round_trip_on_plain_segments ("root").data ("Work").data ("a b/c.txt").data
    (by decide) (by decide) (by decide) (by decide) (by decide) (by decide) (by decide)
